import Mathlib

/-! The file selector of `fileselector.go`.

A shallow embedding of the navigation core of the package `imguifileselector`:
the `FsReader` interface, the `FileSelector` state, the two constructors, the
dialog label, the listing rebuild `buildListing` and the list-activation step of
`Update`.

The selector calls two functions of Go's standard library, `filepath.Abs` and
`filepath.Join`.  They are not part of the package, so the embedding takes them
as a parameter (`PathLib`); `unixPathLib` is a model of their behaviour on a
system whose separator is the slash, and `windowsPathLib` a model of their
behaviour on Windows, used wherever a concrete path has to be computed.
-/

namespace ImguiFileSelector

/-! ## Data model -/

/-- The type `SelectorPurpose`, declared `byte` in the source. -/
abbrev SelectorPurpose := Fin 256

/-- The constant `PurposeOpen` (`iota` = 0). -/
def PurposeOpen : SelectorPurpose := 0

/-- The constant `PurposeSave` (`iota` = 1). -/
def PurposeSave : SelectorPurpose := 1

/-- The three package-level text variables `OpenButtonText`, `SaveButtonText`
and `CloseButtonText`.  They are mutable globals in the source, so every function
that reads one takes their current values as an argument. -/
structure ButtonTexts where
  OpenButtonText : String
  SaveButtonText : String
  CloseButtonText : String

/-- The values the three text variables are declared with. -/
def defaultTexts : ButtonTexts :=
  { OpenButtonText := "Open", SaveButtonText := "Save", CloseButtonText := "Close" }

/-- The interface `FsReader`: its four methods, taken as functions of their
arguments (a reader over an unchanged filesystem). -/
structure FsReader where
  Root : String
  IsDir : String → Bool
  ReadDir : String → List String
  PathSep : String

/-- The two functions of `path/filepath` the selector calls.  `Abs` returns the
pair Go returns: the path and the error, `none` standing for `nil`. -/
structure PathLib where
  Abs : String → String × Option String
  Join : String → String → String

/-- The struct `FileSelector`, field for field. -/
structure FileSelector where
  Path : String
  Selection : String
  OnChoosePressed : String → String → Unit
  OnClosePressed : Unit → Unit
  SelectorPurpose : ImguiFileSelector.SelectorPurpose
  listing : List String
  currentDirectory : String
  currentSelection : Int
  fsReader : FsReader

/-- What stops the list-activation step: the run-time panic of an index
expression whose index is outside the slice. -/
inductive Failure where
  | IndexOutOfRange
  deriving DecidableEq, Repr

/-! ## The operations of the package -/

/-- The method `buildListing`: the listing is emptied, `currentDirectory`
receives the first result of `filepath.Abs`, and on an error the method returns
at once; otherwise `".."` is appended when the argument `path` differs from
`Root()`, followed by the entries of `ReadDir(currentDirectory)`.  The result is
the selector after the call and the returned error. -/
def buildListing (P : PathLib) (fileSelector : FileSelector) (path : String) :
    FileSelector × Option String :=
  let fs1 : FileSelector := { fileSelector with listing := [] }
  let r := P.Abs path
  let fs2 : FileSelector := { fs1 with currentDirectory := r.1 }
  match r.2 with
  | some err => (fs2, some err)
  | none =>
    let fs3 : FileSelector :=
      if path ≠ fs2.fsReader.Root then { fs2 with listing := fs2.listing ++ [".."] } else fs2
    ({ fs3 with listing := fs3.listing ++ fs3.fsReader.ReadDir fs3.currentDirectory }, none)

/-- The constructor `OpenFileSelectorWithReader`: the selector and the error. -/
def OpenFileSelectorWithReader (P : PathLib) (path : String) (fsReader : FsReader) :
    FileSelector × Option String :=
  let result : FileSelector :=
    { Path := path
      Selection := ""
      OnChoosePressed := fun _ _ => ()
      OnClosePressed := fun _ => ()
      SelectorPurpose := PurposeOpen
      listing := []
      currentDirectory := ""
      currentSelection := 0
      fsReader := fsReader }
  buildListing P result path

/-- The constructor `SaveFileSelectorWithReader`: the selector and the error. -/
def SaveFileSelectorWithReader (P : PathLib) (path : String) (fsReader : FsReader) :
    FileSelector × Option String :=
  let result : FileSelector :=
    { Path := path
      Selection := ""
      OnChoosePressed := fun _ _ => ()
      OnClosePressed := fun _ => ()
      SelectorPurpose := PurposeSave
      listing := []
      currentDirectory := ""
      currentSelection := 0
      fsReader := fsReader }
  buildListing P result path

/-- The method `DialogLabel` (value receiver): `fmt.Sprintf("%v File", text)`
of a string is the text followed by `" File"`. -/
def DialogLabel (T : ButtonTexts) (fileSelector : FileSelector) : String :=
  if fileSelector.SelectorPurpose = PurposeOpen then
    T.OpenButtonText ++ " File"
  else
    T.SaveButtonText ++ " File"

/-- The body of `if imgui.ListBox(label, &currentSelection, listing)` in
`Update`, for a frame in which the list box reports index `i`: the index is
stored in `currentSelection`, `Selection` becomes `listing[currentSelection]`
(a panic when the index is outside the listing), the selection is joined to the
current directory, and when the reader says the joined path is a directory the
listing is rebuilt for it, the error of the rebuild being dropped. -/
def listActivation (P : PathLib) (fileSelector : FileSelector) (i : Int) :
    Except Failure FileSelector :=
  let fs1 : FileSelector := { fileSelector with currentSelection := i }
  if h : 0 ≤ i ∧ i.toNat < fs1.listing.length then
    let fs2 : FileSelector := { fs1 with Selection := fs1.listing.get ⟨i.toNat, h.2⟩ }
    let fpathSelection := P.Join fs2.currentDirectory fs2.Selection
    if fs2.fsReader.IsDir fpathSelection then
      .ok (buildListing P fs2 fpathSelection).1
    else
      .ok fs2
  else
    .error Failure.IndexOutOfRange

/-- What the rendering surface reports in one frame: whether the modal popup
is open, the index the list box reports (if it reports one), and whether the
two buttons were pressed. -/
structure Frame where
  popupOpen : Bool
  listBoxIndex : Option Int
  choosePressed : Bool
  closePressed : Bool

/-- The method `Update`, as far as the selector state goes: the two buttons
call the handlers and close the popup, which leaves the selector as it is. -/
def Update (P : PathLib) (fileSelector : FileSelector) (frame : Frame) :
    Except Failure FileSelector :=
  if frame.popupOpen then
    match frame.listBoxIndex with
    | some i => listActivation P fileSelector i
    | none => .ok fileSelector
  else
    .ok fileSelector

/-! ## A model of `path/filepath` for slash-separated paths

`filepath.Clean` is described by its documentation: runs of separators become
one, every `.` element is dropped, every inner `..` element is dropped with the
element before it, a `..` that starts a rooted path is dropped, and the empty
result is `.`.  The model works on the elements between the slashes. -/

/-- The elements of a path: the pieces between the slashes. -/
def splitSlash : List Char → List (List Char)
  | [] => [[]]
  | c :: cs =>
    if c = '/' then [] :: splitSlash cs
    else
      match splitSlash cs with
      | [] => [[c]]
      | e :: es => (c :: e) :: es

/-- One element read by `Clean`; `out` holds the elements written so far, the
last one first. -/
def cleanStep (rooted : Bool) (out : List (List Char)) (e : List Char) : List (List Char) :=
  if e = [] ∨ e = ['.'] then out
  else if e = ['.', '.'] then
    match out with
    | [] => if rooted then [] else [e]
    | top :: rest =>
      if top = ['.', '.'] then (if rooted then out else e :: out) else rest
  else e :: out

/-- An element `Clean` keeps in a rooted path: not empty, neither `.` nor `..`,
and free of slashes. -/
def IsElement (e : List Char) : Prop :=
  e ≠ [] ∧ e ≠ ['.'] ∧ e ≠ ['.', '.'] ∧ '/' ∉ e

/-- The elements joined by slashes. -/
def joinSlash : List (List Char) → List Char
  | [] => []
  | [e] => e
  | e :: es => e ++ '/' :: joinSlash es

/-- `filepath.Clean` on the characters of a path. -/
def cleanChars (path : List Char) : List Char :=
  match path with
  | [] => ['.']
  | c :: _ =>
    let rooted : Bool := c = '/'
    let out := (splitSlash path).foldl (cleanStep rooted) []
    let body := joinSlash out.reverse
    if rooted then '/' :: body
    else if body = [] then ['.'] else body

/-- `filepath.Clean`. -/
def Clean (path : String) : String := String.mk (cleanChars path.data)

/-- `filepath.IsAbs`: the path starts with a slash. -/
def IsAbs (path : String) : Bool :=
  match path.data with
  | c :: _ => c = '/'
  | [] => false

/-- `filepath.Join` of two elements: empty leading elements are ignored, the
rest is joined by a slash and cleaned; two empty elements give the empty
string. -/
def Join (a b : String) : String :=
  if a ≠ "" then Clean (String.mk (a.data ++ '/' :: b.data))
  else if b ≠ "" then Clean b
  else ""

/-- `filepath.Abs`: a rooted path is cleaned; any other path is joined to the
working directory, and when `os.Getwd` fails (`getwd = none`) the result is the
empty string and the error. -/
def Abs (getwd : Option String) (path : String) : String × Option String :=
  if IsAbs path then (Clean path, none)
  else
    match getwd with
    | none => ("", some "getwd: no such file or directory")
    | some wd => (Join wd path, none)

/-- The path library of a process whose `os.Getwd` returns `getwd`. -/
def unixPathLib (getwd : Option String) : PathLib :=
  { Abs := Abs getwd, Join := Join }

/-! ## A model of `path/filepath` on Windows

On Windows `filepath.Abs` can fail for a path that is already absolute: it
passes the path to `syscall.FullPath`, which converts it with
`UTF16PtrFromString` and so returns `EINVAL` for a string that holds a NUL
character, before the system is asked anything.  The model follows
`path_windows.go` as it stood when the package was written: both slashes separate elements, a path may start with a
volume name (a drive letter and a colon, or `\\server\share`), and the result
is written with backslashes.  The characters the functions look at are all
ASCII, so the characters of the string stand for its bytes. -/

/-- The character `\`, the separator of Windows paths. -/
def backslash : Char := Char.ofNat 92

/-- The function `isSlash` of `path_windows.go`. -/
def isSlash (c : Char) : Bool := c = backslash || c = '/'

/-- The test `'a' <= c && c <= 'z' || 'A' <= c && c <= 'Z'` of `volumeNameLen`. -/
def isDriveLetter (c : Char) : Bool :=
  (decide ('a' ≤ c) && decide (c ≤ 'z')) || (decide ('A' ≤ c) && decide (c ≤ 'Z'))

/-- The inner loop of `volumeNameLen` that runs over the share name: how many
characters come before the next slash. -/
def shareNameLen : List Char → Nat
  | [] => 0
  | c :: cs => if isSlash c then 0 else shareNameLen cs + 1

/-- The loop `for n := 3; n < l-1; n++` of `volumeNameLen`, at index `n` with the
characters from `n` on: the first slash found must be followed by a character
that is neither a slash nor a dot, the start of the share name; the volume
name ends where the share name does. -/
def uncVolumeLen (n : Nat) : List Char → Nat
  | [] => 0
  | [_] => 0
  | c :: d :: rest =>
    if isSlash c then
      if isSlash d then 0
      else if d = '.' then 0
      else (n + 1) + shareNameLen (d :: rest)
    else uncVolumeLen (n + 1) (d :: rest)

/-- The function `volumeNameLen` of `path_windows.go`: 2 for a drive letter and
a colon, the length of `\\server\share` for a UNC path, 0 otherwise. -/
def volumeNameLen (path : List Char) : Nat :=
  match path with
  | c0 :: c1 :: rest =>
    if c1 = ':' && isDriveLetter c0 then 2
    else
      match rest with
      | c2 :: c3 :: c4 :: more =>
        if isSlash c0 && isSlash c1 && !isSlash c2 && c2 != '.' then
          uncVolumeLen 3 (c3 :: c4 :: more)
        else 0
      | _ => 0
  | _ => 0

/-- The elements of a Windows path: the pieces between slashes of either kind. -/
def splitSlashes : List Char → List (List Char)
  | [] => [[]]
  | c :: cs =>
    if isSlash c then [] :: splitSlashes cs
    else
      match splitSlashes cs with
      | [] => [[c]]
      | e :: es => (c :: e) :: es

/-- The elements joined by backslashes. -/
def joinBackslash : List (List Char) → List Char
  | [] => []
  | [e] => e
  | e :: es => e ++ backslash :: joinBackslash es

/-- `filepath.FromSlash` on Windows: every `/` becomes `\`. -/
def fromSlash (path : List Char) : List Char :=
  path.map (fun c => if c = '/' then backslash else c)

/-- `filepath.Clean` on Windows, on the characters of a path: the volume name
is kept, the rest is cleaned as on any system, and the result is written with
backslashes.  A path that is a volume name alone is returned as it is when the
volume is a UNC one, and with a dot added when it is a drive. -/
def windowsCleanChars (originalPath : List Char) : List Char :=
  let volLen := volumeNameLen originalPath
  match originalPath.drop volLen with
  | [] =>
    if volLen > 1 && originalPath[1]? != some ':' then fromSlash originalPath
    else originalPath ++ ['.']
  | c :: rest =>
    let rooted : Bool := isSlash c
    let out := (splitSlashes (c :: rest)).foldl (cleanStep rooted) []
    let body := joinBackslash out.reverse
    fromSlash (originalPath.take volLen ++
      (if rooted then backslash :: body else if body = [] then ['.'] else body))

/-- `filepath.Clean` on Windows. -/
def windowsClean (path : String) : String := String.mk (windowsCleanChars path.data)

/-- The function `isUNC` of `path_windows.go`. -/
def isUNC (path : String) : Bool := volumeNameLen path.data > 2

/-- The test `len(elem[0]) == 2 && elem[0][1] == ':'` of `joinNonEmpty`: two
bytes, the second a colon. -/
def isBareDrive (a : String) : Bool :=
  match a.data with
  | [c, d] => d = ':' && decide (c.toNat < 128)
  | _ => false

/-- `filepath.Join` of two elements on Windows (`join` and `joinNonEmpty` of
`path_windows.go`): a bare drive is joined to the rest without a separator;
otherwise the elements are joined by a backslash and cleaned, and when that
gives a UNC path although the first element is not one, the cleaned first
element and the cleaned rest are put together instead. -/
def windowsJoin (a b : String) : String :=
  if a ≠ "" then
    if isBareDrive a then windowsClean (a ++ b)
    else
      let p := windowsClean (String.mk (a.data ++ backslash :: b.data))
      if !isUNC p then p
      else
        let head := windowsClean a
        if isUNC head then p
        else
          let tail := windowsClean b
          if head.data.getLast? = some backslash then head ++ tail
          else String.mk (head.data ++ backslash :: tail.data)
  else if b ≠ "" then windowsClean b
  else ""

/-- `syscall.FullPath`: a name that holds a NUL character is refused with
`EINVAL` by `UTF16PtrFromString`; any other name is handed to the system call
`GetFullPathName`, which is a parameter of the model. -/
def windowsFullPath (getFullPathName : String → String × Option String) (name : String) :
    String × Option String :=
  if Char.ofNat 0 ∈ name.data then ("", some "invalid argument")
  else
    match (getFullPathName name).2 with
    | some err => ("", some err)
    | none => ((getFullPathName name).1, none)

/-- `filepath.Abs` on Windows (`abs` of `path_windows.go`): the empty path
stands for `.`, the full path is asked of `syscall.FullPath`, whose error is
returned with the empty string, and the full path is cleaned. -/
def windowsAbs (getFullPathName : String → String × Option String) (path : String) :
    String × Option String :=
  let path := if path = "" then "." else path
  match (windowsFullPath getFullPathName path).2 with
  | some err => ("", some err)
  | none => (windowsClean (windowsFullPath getFullPathName path).1, none)

/-- The path library of a Windows process whose system call `GetFullPathName`
answers as `getFullPathName` does. -/
def windowsPathLib (getFullPathName : String → String × Option String) : PathLib :=
  { Abs := windowsAbs getFullPathName, Join := windowsJoin }

/-- A system that is only asked about full paths, which `GetFullPathName`
returns as they are. -/
def fullPathGiven : String → String × Option String := fun name => (name, none)

/-! ## Normalised paths

Every path `filepath.Abs` returns without an error is absolute and clean, so
`filepath.Abs` gives it back unchanged, and joining anything to it gives a path
of the same kind.  The selector relies on both facts; they are stated here for
an arbitrary path library and proved below for `unixPathLib`. -/

/-- A path the library leaves as it is: `Abs` returns it with no error. -/
def PathLib.Normal (P : PathLib) (d : String) : Prop := P.Abs d = (d, none)

/-- The two facts about `filepath.Abs` and `filepath.Join` stated above. -/
def PathLib.Lawful (P : PathLib) : Prop :=
  (∀ p, (P.Abs p).2 = none → P.Normal (P.Abs p).1) ∧
  (∀ d x, P.Normal d → P.Normal (P.Join d x))

/-! ## Readers and selectors used as concrete inputs -/

/-- A reader over a small tree: `/a/b/y.txt`, `/a/x.txt`, rooted at `/`. -/
def treeReader : FsReader :=
  { Root := "/"
    IsDir := fun p => p = "/" || p = "/a" || p = "/a/b"
    ReadDir := fun p =>
      if p = "/" then ["a"]
      else if p = "/a" then ["b", "x.txt"]
      else if p = "/a/b" then ["y.txt"]
      else []
    PathSep := "/" }

/-- A reader that lists the parent entry itself, as a listing taken from a
remote server or from `ls -a` does. -/
def dotdotReader : FsReader :=
  { Root := "/"
    IsDir := fun _ => false
    ReadDir := fun _ => ["x", ".."]
    PathSep := "/" }

/-- A reader that cannot read any directory. -/
def unreadableReader : FsReader :=
  { Root := "/"
    IsDir := fun _ => false
    ReadDir := fun _ => []
    PathSep := "/" }

/-- A selector browsing `/a/b` of `treeReader`. -/
def selectorAtAB : FileSelector :=
  { Path := "/a/b"
    Selection := ""
    OnChoosePressed := fun _ _ => ()
    OnClosePressed := fun _ => ()
    SelectorPurpose := PurposeOpen
    listing := ["..", "y.txt"]
    currentDirectory := "/a/b"
    currentSelection := 0
    fsReader := treeReader }

/-- A selector browsing `/a` of `treeReader`, opened for saving. -/
def selectorAtA : FileSelector :=
  { Path := "/a"
    Selection := ""
    OnChoosePressed := fun _ _ => ()
    OnClosePressed := fun _ => ()
    SelectorPurpose := PurposeSave
    listing := ["..", "b", "x.txt"]
    currentDirectory := "/a"
    currentSelection := 0
    fsReader := treeReader }

/-- A reader over an archive mounted at `C:\archive`, whose entry names are
whatever the archive holds: the directory `docs` has one entry, a directory
whose name holds a NUL character. -/
def archiveReader : FsReader :=
  { Root := "C:\\archive"
    IsDir := fun p =>
      p = "C:\\archive" || p = "C:\\archive\\docs" || p = "C:\\archive\\docs\\a\x00b"
    ReadDir := fun p =>
      if p = "C:\\archive" then ["docs"]
      else if p = "C:\\archive\\docs" then ["a\x00b"]
      else []
    PathSep := "\\" }

/-- The selector `OpenFileSelectorWithReader` returns for `C:\archive\docs` and
the archive reader, on Windows. -/
def selectorInArchive : FileSelector :=
  (OpenFileSelectorWithReader (windowsPathLib fullPathGiven) "C:\\archive\\docs"
    archiveReader).1

/-! ## The model of `path/filepath` is lawful -/

/-- Splitting a path never gives the empty list of elements. -/
theorem splitSlash_ne_nil (p : List Char) : splitSlash p ≠ [] := by
  cases p with
  | nil => simp [splitSlash]
  | cons c cs =>
    unfold splitSlash
    split
    · simp
    · split <;> simp

/-- No element of a path holds a slash. -/
theorem splitSlash_no_slash (p : List Char) : ∀ e ∈ splitSlash p, '/' ∉ e := by
  induction p with
  | nil =>
    intro e he
    simp [splitSlash] at he
    simp [he]
  | cons c cs ih =>
    intro e he
    unfold splitSlash at he
    split at he
    · rcases List.mem_cons.1 he with h | h
      · simp [h]
      · exact ih e h
    · rename_i hc
      split at he
      · rename_i hnil
        exact absurd hnil (splitSlash_ne_nil cs)
      · rename_i e0 es hsplit
        rcases List.mem_cons.1 he with h | h
        · subst h
          have h0 : '/' ∉ e0 := ih e0 (by rw [hsplit]; exact List.mem_cons_self _ _)
          intro hmem
          rcases List.mem_cons.1 hmem with h1 | h1
          · exact hc h1.symm
          · exact h0 h1
        · exact ih e (by rw [hsplit]; exact List.mem_cons_of_mem _ h)

/-- A path without a slash is its own single element. -/
theorem splitSlash_of_no_slash (a : List Char) (h : '/' ∉ a) : splitSlash a = [a] := by
  induction a with
  | nil => rfl
  | cons c cs ih =>
    have hc : c ≠ '/' := fun hc => h (by simp [hc])
    have hcs : '/' ∉ cs := fun hm => h (List.mem_cons_of_mem _ hm)
    unfold splitSlash
    rw [if_neg hc, ih hcs]

/-- The first element of a path ends at its first slash. -/
theorem splitSlash_append_slash (a rest : List Char) (h : '/' ∉ a) :
    splitSlash (a ++ '/' :: rest) = a :: splitSlash rest := by
  induction a with
  | nil =>
    show splitSlash ('/' :: rest) = [] :: splitSlash rest
    rw [splitSlash, if_pos rfl]
  | cons c cs ih =>
    have hc : c ≠ '/' := fun hc => h (by simp [hc])
    have hcs : '/' ∉ cs := fun hm => h (List.mem_cons_of_mem _ hm)
    show splitSlash (c :: (cs ++ '/' :: rest)) = (c :: cs) :: splitSlash rest
    rw [splitSlash, if_neg hc, ih hcs]

/-- Splitting undoes joining, for elements without slashes. -/
theorem splitSlash_joinSlash (R : List (List Char)) (hne : R ≠ [])
    (h : ∀ e ∈ R, '/' ∉ e) : splitSlash (joinSlash R) = R := by
  induction R with
  | nil => exact absurd rfl hne
  | cons e es ih =>
    cases es with
    | nil =>
      show splitSlash e = [e]
      exact splitSlash_of_no_slash e (h e (List.mem_cons_self _ _))
    | cons e2 es2 =>
      show splitSlash (e ++ '/' :: joinSlash (e2 :: es2)) = e :: e2 :: es2
      rw [splitSlash_append_slash _ _ (h e (List.mem_cons_self _ _)),
        ih (by simp) (fun x hx => h x (List.mem_cons_of_mem _ hx))]

/-- Reading one element of a rooted path keeps only proper elements written. -/
theorem cleanStep_true_isElement (out : List (List Char)) (e : List Char)
    (hout : ∀ x ∈ out, IsElement x) (he : '/' ∉ e) :
    ∀ x ∈ cleanStep true out e, IsElement x := by
  unfold cleanStep
  by_cases h1 : e = [] ∨ e = ['.']
  · rw [if_pos h1]
    exact hout
  · rw [if_neg h1]
    by_cases h2 : e = ['.', '.']
    · rw [if_pos h2]
      cases out with
      | nil => simp
      | cons top rest =>
        have htop : top ≠ ['.', '.'] := (hout top (List.mem_cons_self _ _)).2.2.1
        simp only [if_neg htop]
        exact fun x hx => hout x (List.mem_cons_of_mem _ hx)
    · rw [if_neg h2]
      intro x hx
      rcases List.mem_cons.1 hx with h | h
      · subst h
        exact ⟨fun hc => h1 (Or.inl hc), fun hc => h1 (Or.inr hc), h2, he⟩
      · exact hout x h

/-- Reading a rooted path writes proper elements only. -/
theorem foldl_cleanStep_isElement (es : List (List Char)) :
    ∀ out : List (List Char), (∀ x ∈ out, IsElement x) → (∀ e ∈ es, '/' ∉ e) →
      ∀ x ∈ es.foldl (cleanStep true) out, IsElement x := by
  induction es with
  | nil => intro out hout _; exact hout
  | cons e es ih =>
    intro out hout hes
    rw [List.foldl_cons]
    exact ih _ (cleanStep_true_isElement out e hout (hes e (List.mem_cons_self _ _)))
      (fun x hx => hes x (List.mem_cons_of_mem _ hx))

/-- Reading proper elements writes each of them, in order. -/
theorem foldl_cleanStep_of_isElement (R : List (List Char)) :
    ∀ out : List (List Char), (∀ e ∈ R, IsElement e) →
      R.foldl (cleanStep true) out = R.reverse ++ out := by
  induction R with
  | nil => intro out _; rfl
  | cons e es ih =>
    intro out h
    obtain ⟨h1, h2, h3, _⟩ := h e (List.mem_cons_self _ _)
    have hstep : cleanStep true out e = e :: out := by
      unfold cleanStep
      rw [if_neg (by rintro (hc | hc) <;> contradiction), if_neg h3]
    rw [List.foldl_cons, hstep, ih _ (fun x hx => h x (List.mem_cons_of_mem _ hx))]
    simp

/-- The cleaned form of a rooted path: the slash, then the kept elements. -/
theorem cleanChars_rooted (q : List Char) :
    cleanChars ('/' :: q) =
      '/' :: joinSlash ((splitSlash q).foldl (cleanStep true) []).reverse := by
  have hs : splitSlash ('/' :: q) = [] :: splitSlash q := by
    rw [splitSlash, if_pos rfl]
  have h0 : cleanStep true [] [] = [] := by
    unfold cleanStep
    simp
  unfold cleanChars
  simp only [hs, List.foldl_cons, decide_True, if_true, h0]

/-- Cleaning a rooted path twice is cleaning it once. -/
theorem cleanChars_rooted_idem (q : List Char) :
    cleanChars (cleanChars ('/' :: q)) = cleanChars ('/' :: q) := by
  rw [cleanChars_rooted q]
  generalize hS : (splitSlash q).foldl (cleanStep true) [] = S
  have hel : ∀ x ∈ S, IsElement x := by
    rw [← hS]
    exact foldl_cleanStep_isElement _ [] (by simp) (splitSlash_no_slash q)
  have helr : ∀ x ∈ S.reverse, IsElement x := fun x hx => hel x (List.mem_reverse.1 hx)
  rw [cleanChars_rooted]
  by_cases hne : S.reverse = []
  · rw [hne]
    rfl
  · rw [splitSlash_joinSlash _ hne (fun e he => (helr e he).2.2.2),
      foldl_cleanStep_of_isElement _ [] helr]
    simp

/-- A path is absolute exactly when its first character is the slash. -/
theorem IsAbs_iff (p : String) : IsAbs p = true ↔ ∃ q, p.data = '/' :: q := by
  unfold IsAbs
  cases h : p.data with
  | nil => simp
  | cons c cs => simp

/-- Cleaning an absolute path gives an absolute path that cleaning leaves as
it is. -/
theorem Clean_of_IsAbs (p : String) (h : IsAbs p = true) :
    IsAbs (Clean p) = true ∧ Clean (Clean p) = Clean p := by
  obtain ⟨q, hq⟩ := (IsAbs_iff p).1 h
  constructor
  · rw [IsAbs_iff]
    exact ⟨_, by show cleanChars p.data = _; rw [hq]; exact cleanChars_rooted q⟩
  · show String.mk (cleanChars (cleanChars p.data)) = String.mk (cleanChars p.data)
    rw [hq, cleanChars_rooted_idem]

/-- Joining anything to an absolute path gives the cleaned form of an absolute
path. -/
theorem Join_of_IsAbs (d x : String) (h : IsAbs d = true) :
    Join d x = Clean (String.mk (d.data ++ '/' :: x.data)) ∧
      IsAbs (String.mk (d.data ++ '/' :: x.data)) = true := by
  obtain ⟨q, hq⟩ := (IsAbs_iff d).1 h
  have hne : d ≠ "" := by
    intro hc
    rw [hc] at hq
    cases hq
  constructor
  · unfold Join
    rw [if_pos hne]
  · rw [IsAbs_iff]
    exact ⟨q ++ '/' :: x.data, by simp [hq]⟩

/-- An absolute, clean path is one `Abs` returns unchanged. -/
theorem Abs_of_clean (getwd : Option String) (d : String) (h : IsAbs d = true)
    (hc : Clean d = d) : Abs getwd d = (d, none) := by
  unfold Abs
  rw [if_pos h, hc]

/-- Whatever `Abs` returns without an error is absolute and clean, provided the
working directory is absolute. -/
theorem Abs_result (getwd : Option String) (hwd : ∀ w, getwd = some w → IsAbs w = true)
    (p : String) (h : (Abs getwd p).2 = none) :
    IsAbs (Abs getwd p).1 = true ∧ Clean (Abs getwd p).1 = (Abs getwd p).1 := by
  unfold Abs at h ⊢
  by_cases ha : IsAbs p = true
  · rw [if_pos ha]
    exact Clean_of_IsAbs p ha
  · rw [if_neg ha] at h ⊢
    cases hg : getwd with
    | none =>
      rw [hg] at h
      cases h
    | some w =>
      obtain ⟨hj, hj2⟩ := Join_of_IsAbs w p (hwd w hg)
      show IsAbs (Join w p) = true ∧ Clean (Join w p) = Join w p
      rw [hj]
      exact Clean_of_IsAbs _ hj2

/-- The model of `path/filepath` satisfies the two facts the selector relies
on, whenever the working directory is an absolute path. -/
theorem unixPathLib_lawful (getwd : Option String)
    (hwd : ∀ w, getwd = some w → IsAbs w = true) : (unixPathLib getwd).Lawful := by
  have hnormal : ∀ d, (unixPathLib getwd).Normal d → IsAbs d = true := by
    intro d hd
    have h2 : (Abs getwd d).2 = none := by
      have : Abs getwd d = (d, none) := hd
      rw [this]
    have h1 : (Abs getwd d).1 = d := by
      have : Abs getwd d = (d, none) := hd
      rw [this]
    have := (Abs_result getwd hwd d h2).1
    rwa [h1] at this
  constructor
  · intro p hp
    obtain ⟨h1, h2⟩ := Abs_result getwd hwd p hp
    exact Abs_of_clean getwd _ h1 h2
  · intro d x hd
    obtain ⟨hj, hj2⟩ := Join_of_IsAbs d x (hnormal d hd)
    obtain ⟨h1, h2⟩ := Clean_of_IsAbs _ hj2
    show Abs getwd (Join d x) = (Join d x, none)
    rw [hj]
    exact Abs_of_clean getwd _ h1 h2

/-! ## The listing rebuild -/

/-- A rebuild whose normalisation succeeds: the directory is the normalised
path and the listing is the optional parent entry followed by what the reader
lists. -/
theorem buildListing_success (P : PathLib) (fs : FileSelector) (path : String)
    (h : (P.Abs path).2 = none) :
    buildListing P fs path =
      ({ fs with
          currentDirectory := (P.Abs path).1
          listing := (if path ≠ fs.fsReader.Root then [".."] else []) ++
            fs.fsReader.ReadDir (P.Abs path).1 }, none) := by
  unfold buildListing
  simp only [h]
  by_cases hr : path = fs.fsReader.Root <;> simp [hr]

/-- A rebuild whose normalisation fails: the listing is empty, the directory is
the string returned with the error, and the error is returned. -/
theorem buildListing_failure (P : PathLib) (fs : FileSelector) (path : String) (e : String)
    (h : (P.Abs path).2 = some e) :
    buildListing P fs path =
      ({ fs with currentDirectory := (P.Abs path).1, listing := [] }, some e) := by
  unfold buildListing
  simp only [h]

/-- The error a rebuild returns is the error of the normalisation. -/
theorem buildListing_error (P : PathLib) (fs : FileSelector) (path : String) :
    (buildListing P fs path).2 = (P.Abs path).2 := by
  cases h : (P.Abs path).2 with
  | none => rw [buildListing_success P fs path h]
  | some e => rw [buildListing_failure P fs path e h]

/-- The activation of a valid index, written out. -/
theorem listActivation_valid (P : PathLib) (fs : FileSelector) (i : Nat)
    (h : i < fs.listing.length) :
    listActivation P fs (i : Int) =
      if fs.fsReader.IsDir (P.Join fs.currentDirectory (fs.listing.get ⟨i, h⟩)) then
        .ok (buildListing P
          { fs with currentSelection := (i : Int), Selection := fs.listing.get ⟨i, h⟩ }
          (P.Join fs.currentDirectory (fs.listing.get ⟨i, h⟩))).1
      else
        .ok { fs with currentSelection := (i : Int), Selection := fs.listing.get ⟨i, h⟩ } := by
  unfold listActivation
  have hv : 0 ≤ (i : Int) ∧ (i : Int).toNat < fs.listing.length := by
    constructor
    · exact Int.ofNat_nonneg i
    · simpa using h
  simp only [dif_pos hv]
  simp only [Int.toNat_ofNat]

/-- The activation of an index outside the listing panics. -/
theorem listActivation_invalid (P : PathLib) (fs : FileSelector) (i : Int)
    (h : ¬ (0 ≤ i ∧ i < (fs.listing.length : Int))) :
    listActivation P fs i = .error Failure.IndexOutOfRange := by
  unfold listActivation
  have hv : ¬ (0 ≤ i ∧ i.toNat < fs.listing.length) := by
    intro hc
    apply h
    refine ⟨hc.1, ?_⟩
    have := hc.2
    omega
  simp only [dif_neg hv]

/-- In a frame whose popup is open and whose list box reports an index,
`Update` changes the selector as the activation of that index does. -/
theorem Update_of_listBox (P : PathLib) (fs : FileSelector) (i : Int)
    (choose close : Bool) :
    Update P fs
        { popupOpen := true, listBoxIndex := some i, choosePressed := choose,
          closePressed := close } =
      listActivation P fs i := rfl

/-- In every other frame `Update` leaves the selector as it is. -/
theorem Update_of_no_listBox (P : PathLib) (fs : FileSelector) (frame : Frame)
    (h : frame.popupOpen = false ∨ frame.listBoxIndex = none) :
    Update P fs frame = .ok fs := by
  unfold Update
  rcases h with h | h
  · simp [h]
  · simp [h]

/-! ## The constructors -/

/-- C1, as amended: for every start path whose normalisation succeeds and every
reader, both constructors return a selector whose `currentDirectory` is the
normalised path and whose listing is `ReadDir(currentDirectory)`, alone or after
one leading `".."`; so, when `ReadDir(currentDirectory)` holds no `".."` entry
of its own, the listing without its `".."` entries is exactly
`ReadDir(currentDirectory)`, and `".."`, when present, is the first element. -/
theorem constructors_listing_is_reader_listing (P : PathLib) (path : String)
    (r : FsReader) (hn : (P.Abs path).2 = none) :
    ∀ s : FileSelector,
      s = (OpenFileSelectorWithReader P path r).1 ∨
        s = (SaveFileSelectorWithReader P path r).1 →
      s.currentDirectory = (P.Abs path).1 ∧
      (s.listing = r.ReadDir s.currentDirectory ∨
        s.listing = ".." :: r.ReadDir s.currentDirectory) ∧
      (".." ∉ r.ReadDir s.currentDirectory →
        s.listing.filter (fun e => e != "..") = r.ReadDir s.currentDirectory ∧
        (".." ∈ s.listing → s.listing.head? = some "..")) := by
  intro s hs
  have key : s.currentDirectory = (P.Abs path).1 ∧
      s.listing = (if path ≠ r.Root then [".."] else []) ++ r.ReadDir (P.Abs path).1 := by
    rcases hs with hs | hs
    · subst hs
      simp only [OpenFileSelectorWithReader]
      rw [buildListing_success P _ path hn]
      exact ⟨rfl, rfl⟩
    · subst hs
      simp only [SaveFileSelectorWithReader]
      rw [buildListing_success P _ path hn]
      exact ⟨rfl, rfl⟩
  obtain ⟨hcd, hl⟩ := key
  rw [← hcd] at hl
  refine ⟨hcd, ?_, ?_⟩
  · by_cases hp : path = r.Root
    · left
      rw [hl, if_neg (not_not.mpr hp), List.nil_append]
    · right
      rw [hl, if_pos hp]
      rfl
  · intro hr
    have hf : (r.ReadDir s.currentDirectory).filter (fun e => e != "..") =
        r.ReadDir s.currentDirectory := by
      rw [List.filter_eq_self]
      intro a ha
      have : a ≠ ".." := fun hc => hr (hc ▸ ha)
      simpa using this
    constructor
    · rw [hl, List.filter_append, hf]
      by_cases hp : path = r.Root <;> simp [hp]
    · intro hmem
      rw [hl] at hmem ⊢
      by_cases hp : path = r.Root
      · rw [if_neg (not_not.mpr hp), List.nil_append] at hmem
        exact absurd hmem hr
      · simp [hp]

/-- C1, witness: `/a` of the tree reader, with no working directory needed. -/
theorem constructors_listing_is_reader_listing_witness :
    ((unixPathLib none).Abs "/a").2 = none ∧
    (OpenFileSelectorWithReader (unixPathLib none) "/a" treeReader).1.currentDirectory =
      ((unixPathLib none).Abs "/a").1 ∧
    (OpenFileSelectorWithReader (unixPathLib none) "/a" treeReader).1.listing.filter
        (fun e => e != "..") =
      treeReader.ReadDir
        (OpenFileSelectorWithReader (unixPathLib none) "/a" treeReader).1.currentDirectory :=
  ⟨by decide,
    (constructors_listing_is_reader_listing (unixPathLib none) "/a" treeReader
      (by decide) _ (Or.inl rfl)).1,
    ((constructors_listing_is_reader_listing (unixPathLib none) "/a" treeReader
      (by decide) _ (Or.inl rfl)).2.2 (by decide)).1⟩

/-- C1, as stated, fails for a reader that lists `".."` itself: opening `/`
with such a reader, the normalisation succeeds, but the listing without its
`".."` entries is not what the reader returned, and `".."` is in the listing
without being its first element. -/
theorem constructors_listing_counterexample :
    ((unixPathLib none).Abs "/").2 = none ∧
    (OpenFileSelectorWithReader (unixPathLib none) "/" dotdotReader).1.listing.filter
        (fun e => e != "..") ≠
      dotdotReader.ReadDir
        (OpenFileSelectorWithReader (unixPathLib none) "/" dotdotReader).1.currentDirectory ∧
    ".." ∈ (OpenFileSelectorWithReader (unixPathLib none) "/" dotdotReader).1.listing ∧
    (OpenFileSelectorWithReader (unixPathLib none) "/" dotdotReader).1.listing.head? ≠
      some ".." := by
  decide

/-- C6: each constructor returns an error exactly when the start path cannot be
normalised; when it can and the reader lists nothing for the normalised path,
there is no error and the listing holds no directory entry: it is empty or
the `".."` entry alone. -/
theorem constructor_error_iff_normalisation_fails (P : PathLib) (path : String)
    (r : FsReader) :
    ((OpenFileSelectorWithReader P path r).2 ≠ none ↔ (P.Abs path).2 ≠ none) ∧
    ((SaveFileSelectorWithReader P path r).2 ≠ none ↔ (P.Abs path).2 ≠ none) ∧
    ((P.Abs path).2 = none → r.ReadDir (P.Abs path).1 = [] →
      (OpenFileSelectorWithReader P path r).2 = none ∧
      ((OpenFileSelectorWithReader P path r).1.listing = [] ∨
        (OpenFileSelectorWithReader P path r).1.listing = [".."]) ∧
      (SaveFileSelectorWithReader P path r).2 = none ∧
      ((SaveFileSelectorWithReader P path r).1.listing = [] ∨
        (SaveFileSelectorWithReader P path r).1.listing = [".."])) := by
  have ho : (OpenFileSelectorWithReader P path r).2 = (P.Abs path).2 := by
    simp only [OpenFileSelectorWithReader]
    exact buildListing_error P _ path
  have hs : (SaveFileSelectorWithReader P path r).2 = (P.Abs path).2 := by
    simp only [SaveFileSelectorWithReader]
    exact buildListing_error P _ path
  refine ⟨by rw [ho], by rw [hs], ?_⟩
  intro hn he
  refine ⟨by rw [ho, hn], ?_, by rw [hs, hn], ?_⟩
  · simp only [OpenFileSelectorWithReader]
    rw [buildListing_success P _ path hn]
    show (if path ≠ r.Root then [".."] else []) ++ r.ReadDir (P.Abs path).1 = [] ∨
      (if path ≠ r.Root then [".."] else []) ++ r.ReadDir (P.Abs path).1 = [".."]
    rw [he]
    by_cases hp : path = r.Root
    · exact Or.inl (by rw [if_neg (not_not.mpr hp)]; rfl)
    · exact Or.inr (by rw [if_pos hp]; rfl)
  · simp only [SaveFileSelectorWithReader]
    rw [buildListing_success P _ path hn]
    show (if path ≠ r.Root then [".."] else []) ++ r.ReadDir (P.Abs path).1 = [] ∨
      (if path ≠ r.Root then [".."] else []) ++ r.ReadDir (P.Abs path).1 = [".."]
    rw [he]
    by_cases hp : path = r.Root
    · exact Or.inl (by rw [if_neg (not_not.mpr hp)]; rfl)
    · exact Or.inr (by rw [if_pos hp]; rfl)

/-- C6, witness: `/secret` of a reader that cannot read it opens without an
error and with no directory entry in the listing. -/
theorem constructor_error_iff_normalisation_fails_witness :
    ((unixPathLib none).Abs "/secret").2 = none ∧
    unreadableReader.ReadDir ((unixPathLib none).Abs "/secret").1 = [] ∧
    (OpenFileSelectorWithReader (unixPathLib none) "/secret" unreadableReader).2 = none ∧
    ((OpenFileSelectorWithReader (unixPathLib none) "/secret" unreadableReader).1.listing =
        [] ∨
      (OpenFileSelectorWithReader (unixPathLib none) "/secret" unreadableReader).1.listing =
        [".."]) :=
  ⟨by decide, by decide,
    ((constructor_error_iff_normalisation_fails (unixPathLib none) "/secret"
      unreadableReader).2.2 (by decide) (by decide)).1,
    ((constructor_error_iff_normalisation_fails (unixPathLib none) "/secret"
      unreadableReader).2.2 (by decide) (by decide)).2.1⟩

/-- C2, at an input where the code departs from it: opening `/.` with a reader
rooted at `/` succeeds, `currentDirectory` is the root, and the listing starts
with `".."` all the same, because `buildListing` compares the path as given,
not the normalised one, with `Root()`. -/
theorem parent_entry_listed_at_root :
    ((unixPathLib none).Abs "/.").2 = none ∧
    (OpenFileSelectorWithReader (unixPathLib none) "/." treeReader).2 = none ∧
    (OpenFileSelectorWithReader (unixPathLib none) "/." treeReader).1.currentDirectory =
      treeReader.Root ∧
    ".." ∉ treeReader.ReadDir treeReader.Root ∧
    (OpenFileSelectorWithReader (unixPathLib none) "/." treeReader).1.listing =
      ["..", "a"] := by
  decide

/-- What the code does in place of C2: after a successful rebuild the parent
entry leads the listing exactly when the path as given differs from `Root()`. -/
theorem buildListing_parent_iff_argument (P : PathLib) (fs : FileSelector) (path : String)
    (hn : (P.Abs path).2 = none) (hr : ".." ∉ fs.fsReader.ReadDir (P.Abs path).1) :
    (".." ∈ (buildListing P fs path).1.listing ↔ path ≠ fs.fsReader.Root) := by
  rw [buildListing_success P fs path hn]
  by_cases hp : path = fs.fsReader.Root
  · simp [hp]
    intro hc
    rw [← hp] at hc
    exact hr hc
  · simp [hp]

/-- C2 holds for a path that is already normalised, as the path of every
descending activation is. -/
theorem buildListing_parent_iff_of_normal (P : PathLib) (fs : FileSelector) (path : String)
    (hn : P.Normal path) (hr : ".." ∉ fs.fsReader.ReadDir path) :
    (".." ∈ (buildListing P fs path).1.listing ↔
      (buildListing P fs path).1.currentDirectory ≠ fs.fsReader.Root) := by
  have h2 : (P.Abs path).2 = none := by rw [hn]
  have h1 : (P.Abs path).1 = path := by rw [hn]
  have hcd : (buildListing P fs path).1.currentDirectory = path := by
    rw [buildListing_success P fs path h2]
    exact h1
  rw [hcd]
  exact buildListing_parent_iff_argument P fs path h2 (by rw [h1]; exact hr)

/-! ## The list activation -/

/-- C4: activating a valid index whose joined path the reader does not report
as a directory leaves `currentDirectory` and `listing` as they were; the step
sets `Selection` and `currentSelection` and nothing else. -/
theorem activation_of_file_keeps_directory_and_listing (P : PathLib) (fs : FileSelector)
    (i : Nat) (h : i < fs.listing.length)
    (hfile : fs.fsReader.IsDir (P.Join fs.currentDirectory (fs.listing.get ⟨i, h⟩)) = false) :
    ∃ fs1 : FileSelector, listActivation P fs (i : Int) = .ok fs1 ∧
      fs1.currentDirectory = fs.currentDirectory ∧
      fs1.listing = fs.listing ∧
      fs1.Selection = fs.listing.get ⟨i, h⟩ ∧
      fs1.currentSelection = (i : Int) ∧
      fs1.Path = fs.Path ∧
      fs1.SelectorPurpose = fs.SelectorPurpose := by
  refine ⟨{ fs with currentSelection := (i : Int), Selection := fs.listing.get ⟨i, h⟩ },
    ?_, rfl, rfl, rfl, rfl, rfl, rfl⟩
  rw [listActivation_valid P fs i h, hfile]
  simp

/-- C4, witness: activating `x.txt` in `/a`. -/
theorem activation_of_file_keeps_directory_and_listing_witness :
    ∃ fs1 : FileSelector,
      listActivation (unixPathLib none) selectorAtA ((2 : Nat) : Int) = .ok fs1 ∧
      fs1.currentDirectory = "/a" ∧
      fs1.listing = ["..", "b", "x.txt"] ∧
      fs1.Selection = "x.txt" := by
  obtain ⟨fs1, h1, h2, h3, h4, _⟩ :=
    activation_of_file_keeps_directory_and_listing (unixPathLib none) selectorAtA 2
      (by decide) (by decide)
  exact ⟨fs1, h1, h2, h3, h4⟩

/-- C7: the activation step succeeds exactly when the index is inside the
listing; outside it the step fails with `IndexOutOfRange`; and for an index
inside, `Selection` is the entry the listing held at that index before the
step, also when the step goes on to rebuild the listing. -/
theorem activation_succeeds_iff_index_in_range (P : PathLib) (fs : FileSelector) (i : Int) :
    ((∃ fs1, listActivation P fs i = .ok fs1) ↔ (0 ≤ i ∧ i < (fs.listing.length : Int))) ∧
    (¬ (0 ≤ i ∧ i < (fs.listing.length : Int)) →
      listActivation P fs i = .error Failure.IndexOutOfRange) ∧
    ((0 ≤ i ∧ i < (fs.listing.length : Int)) →
      ∃ fs1, listActivation P fs i = .ok fs1 ∧
        fs.listing[i.toNat]? = some fs1.Selection ∧ fs1.currentSelection = i) := by
  have hin : (0 ≤ i ∧ i < (fs.listing.length : Int)) →
      ∃ fs1, listActivation P fs i = .ok fs1 ∧
        fs.listing[i.toNat]? = some fs1.Selection ∧ fs1.currentSelection = i := by
    intro hr
    obtain ⟨n, rfl⟩ := Int.eq_ofNat_of_zero_le hr.1
    have hn : n < fs.listing.length := by exact_mod_cast hr.2
    rw [listActivation_valid P fs n hn]
    by_cases hd : fs.fsReader.IsDir (P.Join fs.currentDirectory (fs.listing.get ⟨n, hn⟩)) = true
    · refine ⟨_, by rw [if_pos hd], ?_, ?_⟩
      · cases hab : (P.Abs (P.Join fs.currentDirectory (fs.listing.get ⟨n, hn⟩))).2 with
        | none =>
          rw [buildListing_success P _ _ hab]
          simp [List.getElem?_eq_getElem hn]
        | some e =>
          rw [buildListing_failure P _ _ e hab]
          simp [List.getElem?_eq_getElem hn]
      · cases hab : (P.Abs (P.Join fs.currentDirectory (fs.listing.get ⟨n, hn⟩))).2 with
        | none => rw [buildListing_success P _ _ hab]
        | some e => rw [buildListing_failure P _ _ e hab]
    · refine ⟨_, by rw [if_neg hd], ?_, rfl⟩
      simp [List.getElem?_eq_getElem hn]
  refine ⟨⟨?_, fun hr => ?_⟩, listActivation_invalid P fs i, hin⟩
  · rintro ⟨fs1, hok⟩
    by_contra hc
    rw [listActivation_invalid P fs i hc] at hok
    cases hok
  · obtain ⟨fs1, hok, _⟩ := hin hr
    exact ⟨fs1, hok⟩

/-- C7, witness: index 1 of the listing of `/a` is inside and selects `b`,
which is a directory, so the listing is rebuilt; index 3 is outside. -/
theorem activation_succeeds_iff_index_in_range_witness :
    (∃ fs1, listActivation (unixPathLib none) selectorAtA 1 = .ok fs1 ∧
      selectorAtA.listing[(1 : Int).toNat]? = some fs1.Selection ∧
      fs1.currentSelection = 1) ∧
    listActivation (unixPathLib none) selectorAtA 3 = .error Failure.IndexOutOfRange :=
  ⟨(activation_succeeds_iff_index_in_range (unixPathLib none) selectorAtA 1).2.2
      (by decide),
    (activation_succeeds_iff_index_in_range (unixPathLib none) selectorAtA 3).2.1
      (by decide)⟩

/-- With a lawful path library and a normalised current directory, the rebuild
of a descending activation cannot fail: the joined path is one `Abs` returns
unchanged. -/
theorem activation_rebuild_succeeds_of_normal (P : PathLib) (hP : P.Lawful)
    (fs : FileSelector) (hfs : P.Normal fs.currentDirectory) (x : String) :
    (P.Abs (P.Join fs.currentDirectory x)).2 = none := by
  rw [hP.2 fs.currentDirectory x hfs]

/-- C5, as amended: a rebuild whose normalisation fails returns the error and
leaves the selector as it was except for two fields: the listing is left empty
and `currentDirectory` holds the string returned with the error, which is the
empty string for `filepath.Abs` in both models.  When the rebuild is that of a
descending activation, the activation succeeds, the error is dropped, and the
selector is left the same way, with `Selection` and `currentSelection` set by
the activation. -/
theorem failed_rebuild_empties_listing (P : PathLib) (fs : FileSelector) (path : String)
    (e : String) (hfail : (P.Abs path).2 = some e) :
    buildListing P fs path =
      ({ fs with currentDirectory := (P.Abs path).1, listing := [] }, some e) ∧
    (∀ (i : Nat) (h : i < fs.listing.length),
      path = P.Join fs.currentDirectory (fs.listing.get ⟨i, h⟩) →
      fs.fsReader.IsDir path = true →
      listActivation P fs (i : Int) =
        .ok { fs with
                currentSelection := (i : Int)
                Selection := fs.listing.get ⟨i, h⟩
                currentDirectory := (P.Abs path).1
                listing := [] }) ∧
    (∀ (getwd : Option String) (p : String),
      (Abs getwd p).2 ≠ none → (Abs getwd p).1 = "") ∧
    (∀ (getFullPathName : String → String × Option String) (p : String),
      (windowsAbs getFullPathName p).2 ≠ none → (windowsAbs getFullPathName p).1 = "") := by
  refine ⟨buildListing_failure P fs path e hfail, ?_, ?_, ?_⟩
  · intro i h hp hd
    subst hp
    rw [listActivation_valid P fs i h, if_pos hd, buildListing_failure P _ _ e hfail]
  · intro getwd p hne
    unfold Abs at hne ⊢
    by_cases ha : IsAbs p = true
    · rw [if_pos ha] at hne
      exact absurd rfl hne
    · rw [if_neg ha] at hne ⊢
      cases getwd with
      | none => rfl
      | some w => exact absurd rfl hne
  · intro sys p hne
    unfold windowsAbs at hne ⊢
    cases hfp : (windowsFullPath sys (if p = "" then "." else p)).2 with
    | none =>
      simp only [hfp] at hne
      exact absurd rfl hne
    | some err => simp only [hfp]

/-- C5, witness: on Windows the selector opened in `C:\archive\docs` lists a
directory whose name holds a NUL character; the joined path cannot be
normalised, and activating the entry leaves the listing and the current
directory empty. -/
theorem failed_rebuild_empties_listing_witness :
    ((windowsPathLib fullPathGiven).Abs "C:\\archive\\docs\\a\x00b").2 =
      some "invalid argument" ∧
    buildListing (windowsPathLib fullPathGiven) selectorInArchive
        "C:\\archive\\docs\\a\x00b" =
      ({ selectorInArchive with currentDirectory := "", listing := [] },
        some "invalid argument") ∧
    listActivation (windowsPathLib fullPathGiven) selectorInArchive ((1 : Nat) : Int) =
      .ok { selectorInArchive with
              currentSelection := ((1 : Nat) : Int)
              Selection := "a\x00b"
              currentDirectory := ""
              listing := [] } :=
  ⟨by decide,
    (failed_rebuild_empties_listing (windowsPathLib fullPathGiven) selectorInArchive
      "C:\\archive\\docs\\a\x00b" "invalid argument" (by decide)).1,
    (failed_rebuild_empties_listing (windowsPathLib fullPathGiven) selectorInArchive
      "C:\\archive\\docs\\a\x00b" "invalid argument" (by decide)).2.1 1 (by decide)
      (by decide) (by decide)⟩

/-- C5, as stated, fails.  On Windows, `OpenFileSelectorWithReader` opens
`C:\archive\docs` without an error and lists `".."` and an entry whose name
holds a NUL character, which the reader reports as a directory.  Activating
that entry joins it to the current directory; `filepath.Abs` refuses the
joined path, and the rebuild the activation starts leaves the listing empty and
the current directory empty, not as they were before the call. -/
theorem failed_rebuild_counterexample :
    (OpenFileSelectorWithReader (windowsPathLib fullPathGiven) "C:\\archive\\docs"
      archiveReader).2 = none ∧
    selectorInArchive.listing = ["..", "a\x00b"] ∧
    selectorInArchive.currentDirectory = "C:\\archive\\docs" ∧
    (windowsPathLib fullPathGiven).Join selectorInArchive.currentDirectory "a\x00b" =
      "C:\\archive\\docs\\a\x00b" ∧
    selectorInArchive.fsReader.IsDir "C:\\archive\\docs\\a\x00b" = true ∧
    ((windowsPathLib fullPathGiven).Abs "C:\\archive\\docs\\a\x00b").2 ≠ none ∧
    (buildListing (windowsPathLib fullPathGiven)
        { selectorInArchive with currentSelection := 1, Selection := "a\x00b" }
        "C:\\archive\\docs\\a\x00b").1.listing ≠ selectorInArchive.listing ∧
    ∃ fs1 : FileSelector,
      listActivation (windowsPathLib fullPathGiven) selectorInArchive 1 = .ok fs1 ∧
      fs1.listing ≠ selectorInArchive.listing ∧
      fs1.currentDirectory ≠ selectorInArchive.currentDirectory := by
  refine ⟨by decide, by decide, by decide, by decide, by decide, by decide, by decide, ?_⟩
  have hact := listActivation_valid (windowsPathLib fullPathGiven) selectorInArchive 1
    (by decide)
  rw [if_pos (by decide)] at hact
  rw [buildListing_failure _ _ _ "invalid argument" (by decide)] at hact
  exact ⟨_, hact, by decide, by decide⟩

/-- C8: from `/a/b`, with a reader rooted at `/` that reports `/a` as a
directory, activating the parent entry at index 0 leaves the selector in `/a`,
listing the parent entry and then what the reader lists for `/a`. -/
theorem activating_parent_entry_goes_up (getwd : Option String) (fs : FileSelector)
    (hcd : fs.currentDirectory = "/a/b") (hroot : fs.fsReader.Root = "/")
    (hdir : fs.fsReader.IsDir "/a" = true) (hfirst : fs.listing.head? = some "..") :
    ∃ fs1, listActivation (unixPathLib getwd) fs 0 = .ok fs1 ∧
      fs1.currentDirectory = "/a" ∧
      fs1.Selection = ".." ∧
      fs1.listing = ".." :: fs.fsReader.ReadDir "/a" := by
  have hlen : 0 < fs.listing.length := by
    cases hl : fs.listing with
    | nil => rw [hl] at hfirst; cases hfirst
    | cons a l => simp
  have h0 : fs.listing[0]? = some ".." := by
    cases hl : fs.listing with
    | nil => rw [hl] at hfirst; cases hfirst
    | cons a l =>
      rw [hl] at hfirst
      simpa using hfirst
  have hget : fs.listing.get ⟨0, hlen⟩ = ".." := by
    obtain ⟨_, hg⟩ := List.getElem?_eq_some.1 h0
    exact hg
  have hjoin : (unixPathLib getwd).Join "/a/b" ".." = "/a" := by
    show Join "/a/b" ".." = "/a"
    decide
  have habs : (unixPathLib getwd).Abs "/a" = ("/a", none) := by
    show Abs getwd "/a" = ("/a", none)
    unfold Abs
    rw [if_pos (by decide)]
    decide
  have hact := listActivation_valid (unixPathLib getwd) fs 0 hlen
  rw [hget, hcd, hjoin, if_pos hdir] at hact
  rw [buildListing_success _ _ _ (by rw [habs])] at hact
  refine ⟨_, hact, ?_, rfl, ?_⟩
  · show ((unixPathLib getwd).Abs "/a").1 = "/a"
    rw [habs]
  · show (if "/a" ≠ fs.fsReader.Root then [".."] else []) ++
      fs.fsReader.ReadDir ((unixPathLib getwd).Abs "/a").1 = ".." :: fs.fsReader.ReadDir "/a"
    rw [habs, hroot]
    simp

/-- C8, witness: the selector browsing `/a/b` of the tree reader. -/
theorem activating_parent_entry_goes_up_witness :
    ∃ fs1, listActivation (unixPathLib none) selectorAtAB 0 = .ok fs1 ∧
      fs1.currentDirectory = "/a" ∧
      fs1.Selection = ".." ∧
      fs1.listing = ["..", "b", "x.txt"] := by
  obtain ⟨fs1, h1, h2, h3, h4⟩ :=
    activating_parent_entry_goes_up none selectorAtAB rfl rfl (by decide) rfl
  exact ⟨fs1, h1, h2, h3, by rw [h4]; decide⟩

/-- A successful constructor leaves the selector in a normalised directory. -/
theorem constructor_directory_normal (P : PathLib) (hP : P.Lawful) (path : String)
    (r : FsReader) :
    ((OpenFileSelectorWithReader P path r).2 = none →
      P.Normal (OpenFileSelectorWithReader P path r).1.currentDirectory) ∧
    ((SaveFileSelectorWithReader P path r).2 = none →
      P.Normal (SaveFileSelectorWithReader P path r).1.currentDirectory) := by
  constructor
  · intro h
    simp only [OpenFileSelectorWithReader] at h ⊢
    rw [buildListing_error] at h
    rw [buildListing_success P _ path h]
    exact hP.1 path h
  · intro h
    simp only [SaveFileSelectorWithReader] at h ⊢
    rw [buildListing_error] at h
    rw [buildListing_success P _ path h]
    exact hP.1 path h

/-- An activation keeps the selector in a normalised directory. -/
theorem activation_directory_normal (P : PathLib) (hP : P.Lawful) (fs fs1 : FileSelector)
    (hfs : P.Normal fs.currentDirectory) (i : Int) (hact : listActivation P fs i = .ok fs1) :
    P.Normal fs1.currentDirectory := by
  by_cases hr : 0 ≤ i ∧ i < (fs.listing.length : Int)
  · obtain ⟨n, rfl⟩ := Int.eq_ofNat_of_zero_le hr.1
    have hn : n < fs.listing.length := by exact_mod_cast hr.2
    rw [listActivation_valid P fs n hn] at hact
    have hj := hP.2 fs.currentDirectory (fs.listing.get ⟨n, hn⟩) hfs
    by_cases hd : fs.fsReader.IsDir (P.Join fs.currentDirectory (fs.listing.get ⟨n, hn⟩)) = true
    · rw [if_pos hd, buildListing_success P _ _ (by rw [hj])] at hact
      cases hact
      show P.Normal (P.Abs (P.Join fs.currentDirectory (fs.listing.get ⟨n, hn⟩))).1
      rw [hj]
      exact hj
    · rw [if_neg hd] at hact
      cases hact
      exact hfs
  · rw [listActivation_invalid P fs i hr] at hact
    cases hact

/-- C9: from a selector reached by a successful rebuild, rebuilding for the
current directory succeeds, and rebuilding for it a second time succeeds with
the same listing and the same current directory as the first time. -/
theorem rebuild_of_current_directory_idempotent (P : PathLib) (hP : P.Lawful)
    (fs0 : FileSelector) (path : String) (hok : (buildListing P fs0 path).2 = none) :
    ∀ fs once twice : FileSelector,
      fs = (buildListing P fs0 path).1 →
      once = (buildListing P fs fs.currentDirectory).1 →
      twice = (buildListing P once once.currentDirectory).1 →
      (buildListing P fs fs.currentDirectory).2 = none ∧
      (buildListing P once once.currentDirectory).2 = none ∧
      twice.listing = once.listing ∧
      twice.currentDirectory = once.currentDirectory ∧
      once.currentDirectory = fs.currentDirectory := by
  intro fs once twice hfs honce htwice
  rw [buildListing_error] at hok
  have hcd : fs.currentDirectory = (P.Abs path).1 := by
    rw [hfs, buildListing_success P fs0 path hok]
  have hnorm : P.Abs fs.currentDirectory = (fs.currentDirectory, none) := by
    rw [hcd]
    exact hP.1 path hok
  have h2 : (P.Abs fs.currentDirectory).2 = none := by rw [hnorm]
  have h1 : (P.Abs fs.currentDirectory).1 = fs.currentDirectory := by rw [hnorm]
  have honce2 : once =
      { fs with
          currentDirectory := (P.Abs fs.currentDirectory).1
          listing := (if fs.currentDirectory ≠ fs.fsReader.Root then [".."] else []) ++
            fs.fsReader.ReadDir (P.Abs fs.currentDirectory).1 } := by
    rw [honce, buildListing_success P fs _ h2]
  have hocd : once.currentDirectory = fs.currentDirectory := by
    rw [honce2]
    exact h1
  have hor : once.fsReader = fs.fsReader := by rw [honce2]
  have h2o : (P.Abs once.currentDirectory).2 = none := by rw [hocd, h2]
  have htwice2 : twice =
      { once with
          currentDirectory := (P.Abs once.currentDirectory).1
          listing := (if once.currentDirectory ≠ once.fsReader.Root then [".."] else []) ++
            once.fsReader.ReadDir (P.Abs once.currentDirectory).1 } := by
    rw [htwice, buildListing_success P once _ h2o]
  refine ⟨by rw [buildListing_error, h2], by rw [buildListing_error, h2o], ?_, ?_, hocd⟩
  · rw [htwice2]
    show _ ++ once.fsReader.ReadDir (P.Abs once.currentDirectory).1 = once.listing
    rw [hocd, hor]
    rw [honce2]
  · rw [htwice2]
    show (P.Abs once.currentDirectory).1 = once.currentDirectory
    rw [hocd, h1]

/-- C9, witness: the selector rebuilt for `/a/./b/`, then twice for its own
current directory `/a/b`. -/
theorem rebuild_of_current_directory_idempotent_witness :
    (unixPathLib none).Lawful ∧
    (buildListing (unixPathLib none) selectorAtA "/a/./b/").2 = none ∧
    (buildListing (unixPathLib none)
      (buildListing (unixPathLib none)
        (buildListing (unixPathLib none) selectorAtA "/a/./b/").1 "/a/b").1 "/a/b").1.listing =
    (buildListing (unixPathLib none)
      (buildListing (unixPathLib none) selectorAtA "/a/./b/").1 "/a/b").1.listing :=
  ⟨unixPathLib_lawful none (fun w hw => by cases hw), by decide,
    (rebuild_of_current_directory_idempotent (unixPathLib none)
      (unixPathLib_lawful none (fun w hw => by cases hw)) selectorAtA "/a/./b/" (by decide)
      _ _ _ rfl rfl rfl).2.2.1⟩

/-! ## The dialog label -/

/-- C10: the label depends on the purpose alone: two selectors with the same
purpose get the same label, which is the open-button text followed by `" File"`
for `PurposeOpen` and the save-button text followed by `" File"` for
`PurposeSave`, that is `"Open File"` and `"Save File"` with the texts the
package declares. -/
theorem DialogLabel_depends_on_purpose_only (T : ButtonTexts) :
    (∀ fs1 fs2 : FileSelector, fs1.SelectorPurpose = fs2.SelectorPurpose →
      DialogLabel T fs1 = DialogLabel T fs2) ∧
    (∀ fs : FileSelector, fs.SelectorPurpose = PurposeOpen →
      DialogLabel T fs = T.OpenButtonText ++ " File") ∧
    (∀ fs : FileSelector, fs.SelectorPurpose = PurposeSave →
      DialogLabel T fs = T.SaveButtonText ++ " File") ∧
    (∀ fs : FileSelector, fs.SelectorPurpose = PurposeOpen →
      DialogLabel defaultTexts fs = "Open File") ∧
    (∀ fs : FileSelector, fs.SelectorPurpose = PurposeSave →
      DialogLabel defaultTexts fs = "Save File") := by
  refine ⟨?_, ?_, ?_, ?_, ?_⟩
  · intro fs1 fs2 h
    unfold DialogLabel
    rw [h]
  · intro fs h
    unfold DialogLabel
    rw [if_pos h]
  · intro fs h
    unfold DialogLabel
    rw [h, if_neg (by decide)]
  · intro fs h
    unfold DialogLabel
    rw [if_pos h]
    decide
  · intro fs h
    unfold DialogLabel
    rw [h, if_neg (by decide)]
    decide

/-- C10, witness: two selectors opened for saving in different directories,
and one opened for opening. -/
theorem DialogLabel_depends_on_purpose_only_witness :
    DialogLabel defaultTexts selectorAtA =
      DialogLabel defaultTexts { selectorAtAB with SelectorPurpose := PurposeSave } ∧
    DialogLabel defaultTexts selectorAtAB = "Open File" ∧
    DialogLabel defaultTexts selectorAtA = "Save File" :=
  ⟨(DialogLabel_depends_on_purpose_only defaultTexts).1 _ _ rfl,
    (DialogLabel_depends_on_purpose_only defaultTexts).2.2.2.1 _ rfl,
    (DialogLabel_depends_on_purpose_only defaultTexts).2.2.2.2 _ rfl⟩

end ImguiFileSelector
